import Mathlib

/-!
Shallow embedding of `src/utils/project_storage.py` (pal-mcp-server):
a two-tier (in-memory + file-backed) key-value store for structured
project-context records.

Modelling conventions:
* Python `dict`s (the in-memory table, and the projects directory seen as a
  map from file name to file content) become association lists with
  `mapInsert` / `mapErase` / `List.lookup`.
* The system clock is passed explicitly: every operation that reads
  `datetime.utcnow().isoformat()` takes a `now : String` argument.
* A JSON document is the inductive `JsonVal`; a file on disk either parses
  to a `JsonVal` or is `malformed` text.
* I/O failures that the Python code catches (file write failure in
  `_save_to_file`, unlink failure in `delete`) are modelled by explicit
  Boolean success flags; the caught exception never propagates, so the
  Lean functions are total.
* `file_reads` is an instrumentation counter incremented each time the
  file-tier load path (`_load_from_file`) runs, so that "the second get
  does not touch the filesystem" is statable.
* Python's Unicode-aware `str.isalnum` is modelled by the ASCII
  `Char.isAlphanum`; every identifier appearing in the claims is ASCII.
-/

namespace Pal

/-- A parsed JSON value (`json.loads` result / `model_dump_json` content). -/
inductive JsonVal where
  | null
  | bool (b : Bool)
  | num (n : Int)
  | str (s : String)
  | arr (elems : List JsonVal)
  | obj (fields : List (String × JsonVal))
deriving BEq

/-- Embedding of the pydantic model `ProjectContext` (project_storage.py
lines 24-41).  `metadata : dict[str, Any]` becomes an association list of
JSON values. -/
structure ProjectContext where
  project_id : String
  project_name : String
  summary : String := ""
  context : String := ""
  decisions : List String := []
  blockers : List String := []
  next_steps : List String := []
  focus_areas : List String := []
  created_at : String
  updated_at : String
  metadata : List (String × JsonVal) := []
deriving BEq

/-- Python dict assignment `m[k] = v`: replace the binding in place if the
key is present, otherwise append it. -/
def mapInsert {α : Type} (m : List (String × α)) (k : String) (v : α) :
    List (String × α) :=
  match m with
  | [] => [(k, v)]
  | (k', v') :: rest =>
      if k' = k then (k, v) :: rest else (k', v') :: mapInsert rest k v

/-- Python `del m[k]` / `Path.unlink`: remove every binding of the key
(a Python dict holds each key at most once). -/
def mapErase {α : Type} (m : List (String × α)) (k : String) :
    List (String × α) :=
  m.filter (fun kv => kv.1 != k)

/-- Serialization of one record, `project.model_dump_json(indent=2)`
(project_storage.py line 219), as the JSON object it prints. -/
def encodeProject (p : ProjectContext) : JsonVal :=
  .obj [("project_id", .str p.project_id),
        ("project_name", .str p.project_name),
        ("summary", .str p.summary),
        ("context", .str p.context),
        ("decisions", .arr (p.decisions.map .str)),
        ("blockers", .arr (p.blockers.map .str)),
        ("next_steps", .arr (p.next_steps.map .str)),
        ("focus_areas", .arr (p.focus_areas.map .str)),
        ("created_at", .str p.created_at),
        ("updated_at", .str p.updated_at),
        ("metadata", .obj p.metadata)]

/-- Decode a JSON array of strings (pydantic validation of `list[str]`);
any non-string element is a validation error. -/
def decodeStrs : List JsonVal → Option (List String)
  | [] => some []
  | .str s :: rest => (decodeStrs rest).map (fun xs => s :: xs)
  | _ => none

/-- Pydantic validation of a required `str` field: present and a string. -/
def decodeReqStr (fields : List (String × JsonVal)) (key : String) :
    Option String :=
  match fields.lookup key with
  | some (.str s) => some s
  | _ => none

/-- Pydantic validation of a `str` field with a default: absent means the
default, present must be a string. -/
def decodeOptStr (fields : List (String × JsonVal)) (key : String)
    (dflt : String) : Option String :=
  match fields.lookup key with
  | none => some dflt
  | some (.str s) => some s
  | some _ => none

/-- Pydantic validation of a `list[str]` field defaulting to `[]`. -/
def decodeOptStrs (fields : List (String × JsonVal)) (key : String) :
    Option (List String) :=
  match fields.lookup key with
  | none => some []
  | some (.arr xs) => decodeStrs xs
  | some _ => none

/-- Pydantic validation of the `metadata : dict[str, Any]` field. -/
def decodeMeta (fields : List (String × JsonVal)) :
    Option (List (String × JsonVal)) :=
  match fields.lookup "metadata" with
  | none => some []
  | some (.obj kvs) => some kvs
  | some _ => none

/-- Deserialization `ProjectContext(**data)` (project_storage.py line 230):
pydantic requires `project_id` and `project_name`, fills defaults for the
rest (the timestamp defaults call `datetime.utcnow()`, hence the `now`
argument), and rejects ill-typed fields.  `none` is the raised
`ValidationError`, which every caller catches. -/
def decodeProject (now : String) : JsonVal → Option ProjectContext
  | .obj fields => do
      let pid ← decodeReqStr fields "project_id"
      let pname ← decodeReqStr fields "project_name"
      let summ ← decodeOptStr fields "summary" ""
      let ctx ← decodeOptStr fields "context" ""
      let decs ← decodeOptStrs fields "decisions"
      let blks ← decodeOptStrs fields "blockers"
      let nxts ← decodeOptStrs fields "next_steps"
      let fcas ← decodeOptStrs fields "focus_areas"
      let cat ← decodeOptStr fields "created_at" now
      let uat ← decodeOptStr fields "updated_at" now
      let meta ← decodeMeta fields
      some ⟨pid, pname, summ, ctx, decs, blks, nxts, fcas, cat, uat, meta⟩
  | _ => none

/-- Content of one file in the projects directory: text that parses as
JSON, or malformed text (`json.loads` raises). -/
inductive FileContent where
  | json (v : JsonVal)
  | malformed
deriving BEq

/-- Sanitization in `_get_file_path` (line 253):
`"".join(c for c in project_id if c.isalnum() or c == "-")`. -/
def sanitize_id (project_id : String) : String :=
  String.mk (project_id.data.filter (fun c => c.isAlphanum || c == '-'))

/-- File name `f"{safe_id}.json"` used as the key into the projects
directory (line 254). -/
def file_name (project_id : String) : String :=
  sanitize_id project_id ++ ".json"

/-- The projects directory `Path.home() / ".pal" / "projects"`; the home
directory is abstract. -/
def projects_dir (home : String) : String :=
  home ++ "/.pal/projects"

/-- Full path `self._projects_dir / f"{safe_id}.json"` returned by
`_get_file_path` (lines 250-254). -/
def get_file_path (home : String) (project_id : String) : String :=
  projects_dir home ++ "/" ++ file_name project_id

/-- State of a `ProjectStorage` instance: the in-memory table
`_memory_store`, the projects directory as a map from file name to file
content, and an instrumentation counter of file-tier load attempts. -/
structure ProjectStorage where
  memory_store : List (String × ProjectContext)
  files : List (String × FileContent)
  file_reads : Nat
deriving BEq

/-- The fresh store built by `ProjectStorage.__init__` (empty table; the
directory content is whatever is on disk, here empty). -/
def ProjectStorage.init : ProjectStorage :=
  ⟨[], [], 0⟩

/-- Embedding of `_save_to_file` (lines 215-222): write the serialized
record to `_get_file_path(project.project_id)`.  `writeOk = false` is a
raised I/O error, caught and logged: the state is unchanged and nothing
propagates. -/
def ProjectStorage.save_to_file (s : ProjectStorage) (project : ProjectContext)
    (writeOk : Bool) : ProjectStorage :=
  if writeOk then
    let fs := mapInsert s.files (file_name project.project_id)
      (FileContent.json (encodeProject project))
    { s with files := fs }
  else s

/-- Embedding of `save` (lines 72-94): set `updated_at` to now, upsert
into the memory table, and, only if `persist`, additionally write the
file.  Returns the `project_id` unconditionally. -/
def ProjectStorage.save (s : ProjectStorage) (project : ProjectContext)
    (persist : Bool) (now : String) (writeOk : Bool) :
    ProjectStorage × String :=
  let project := { project with updated_at := now }
  let mem := mapInsert s.memory_store project.project_id project
  let s := { s with memory_store := mem }
  let s := if persist then s.save_to_file project writeOk else s
  (s, project.project_id)

/-- Embedding of `_load_from_file` (lines 224-233): check existence, read,
parse, validate; a missing file, malformed JSON or failed validation all
yield `none` (logged, never raised).  The counter records that the
file tier was touched. -/
def ProjectStorage.load_from_file (s : ProjectStorage) (project_id : String)
    (now : String) : ProjectStorage × Option ProjectContext :=
  let s := { s with file_reads := s.file_reads + 1 }
  match s.files.lookup (file_name project_id) with
  | none => (s, none)
  | some .malformed => (s, none)
  | some (.json v) => (s, decodeProject now v)

/-- Embedding of `get` (lines 96-121): memory first; on miss try the file
tier, and on a file hit promote the loaded record into the memory table
under the requested id before returning it. -/
def ProjectStorage.get (s : ProjectStorage) (project_id : String)
    (now : String) : ProjectStorage × Option ProjectContext :=
  match s.memory_store.lookup project_id with
  | some project => (s, some project)
  | none =>
      match s.load_from_file project_id now with
      | (s', some project) =>
          let mem := mapInsert s'.memory_store project_id project
          ({ s' with memory_store := mem }, some project)
      | (s', none) => (s', none)

/-- Embedding of `delete` (lines 182-213): drop the memory entry if
present; when `delete_file` and the backing file exists, unlink it
(`unlinkOk = false` is a caught `OSError`: the flag is not set and the
file map is unchanged).  Returns whether some removal happened. -/
def ProjectStorage.delete (s : ProjectStorage) (project_id : String)
    (delete_file : Bool) (unlinkOk : Bool) : ProjectStorage × Bool :=
  let memHit := (s.memory_store.lookup project_id).isSome
  let s := if memHit then
      { s with memory_store := mapErase s.memory_store project_id }
    else s
  if delete_file then
    match s.files.lookup (file_name project_id) with
    | some _ =>
        if unlinkOk then
          ({ s with files := mapErase s.files (file_name project_id) }, true)
        else (s, memHit)
    | none => (s, memHit)
  else (s, memHit)

/-- Modelled from the spec: eviction of one entry from the memory tier.
The code's in-memory TTL is delegated to an external cache collaborator
(not under src/); the spec describes it as removing the memory entry while
leaving the file tier intact. -/
def ProjectStorage.evict (s : ProjectStorage) (project_id : String) :
    ProjectStorage :=
  { s with memory_store := mapErase s.memory_store project_id }

/-! Association-list map lemmas. -/

theorem lookup_mapInsert_self {α : Type} (m : List (String × α)) (k : String)
    (v : α) : (mapInsert m k v).lookup k = some v := by
  induction m with
  | nil => simp [mapInsert, List.lookup]
  | cons kv rest ih =>
      obtain ⟨k', v'⟩ := kv
      by_cases h : k' = k
      · simp [mapInsert, h, List.lookup]
      · simp only [mapInsert, if_neg h, List.lookup]
        have hne : (k == k') = false := by
          simp [Ne.symm h]
        simp [hne, ih]

theorem lookup_mapInsert_ne {α : Type} (m : List (String × α)) (k k1 : String)
    (v : α) (h : k1 ≠ k) : (mapInsert m k v).lookup k1 = m.lookup k1 := by
  have hb : (k1 == k) = false := by simp [h]
  induction m with
  | nil => simp [mapInsert, List.lookup, hb]
  | cons kv rest ih =>
      obtain ⟨k', v'⟩ := kv
      by_cases hk : k' = k
      · subst hk
        simp [mapInsert, List.lookup, hb]
      · simp only [mapInsert, if_neg hk, List.lookup]
        by_cases hx : k1 = k'
        · simp [hx]
        · have : (k1 == k') = false := by simp [hx]
          simp [this, ih]

theorem lookup_mapErase_self {α : Type} (m : List (String × α)) (k : String) :
    (mapErase m k).lookup k = none := by
  induction m with
  | nil => simp [mapErase, List.lookup]
  | cons kv rest ih =>
      obtain ⟨k', v'⟩ := kv
      by_cases h : k' = k
      · simp [mapErase, h, List.filter] at ih ⊢
        exact ih
      · have hne : (k' != k) = true := by simp [h]
        have hne2 : (k == k') = false := by simp [Ne.symm h]
        simp [mapErase, List.filter, hne, List.lookup, hne2] at ih ⊢
        exact ih

theorem lookup_mapErase_ne {α : Type} (m : List (String × α)) (k k1 : String)
    (h : k1 ≠ k) : (mapErase m k).lookup k1 = m.lookup k1 := by
  induction m with
  | nil => simp [mapErase]
  | cons kv rest ih =>
      obtain ⟨k', v'⟩ := kv
      by_cases hk : k' = k
      · subst hk
        have : (k1 == k') = false := by simp [h]
        simp [mapErase, List.filter, List.lookup, this] at ih ⊢
        exact ih
      · have hne : (k' != k) = true := by simp [hk]
        simp only [mapErase, List.filter, hne] at ih ⊢
        by_cases hx : k1 = k'
        · simp [List.lookup, hx]
        · have : (k1 == k') = false := by simp [hx]
          simp [List.lookup, this, ih]

/-! Codec round-trip. -/

theorem decodeStrs_map_str (xs : List String) :
    decodeStrs (xs.map JsonVal.str) = some xs := by
  induction xs with
  | nil => rfl
  | cons x rest ih => simp [decodeStrs, ih]

theorem decode_encode (now : String) (p : ProjectContext) :
    decodeProject now (encodeProject p) = some p := by
  simp [encodeProject, decodeProject, decodeReqStr, decodeOptStr,
    decodeOptStrs, decodeMeta, List.lookup, decodeStrs_map_str]

theorem string_data_append (s t : String) : (s ++ t).data = s.data ++ t.data := by
  obtain ⟨d1⟩ := s
  obtain ⟨d2⟩ := t
  rfl

/-- Closed form of `save`: the memory table gains the record with
`updated_at := now` under its `project_id`; the file map changes exactly
when `persist` is set and the write succeeds; the id is returned in every
case. -/
theorem save_eq (s : ProjectStorage) (p : ProjectContext) (persist : Bool)
    (now : String) (writeOk : Bool) :
    s.save p persist now writeOk =
      ({ s with
          memory_store :=
            mapInsert s.memory_store p.project_id { p with updated_at := now },
          files :=
            if persist && writeOk then
              mapInsert s.files (file_name p.project_id)
                (FileContent.json (encodeProject { p with updated_at := now }))
            else s.files },
       p.project_id) := by
  cases persist <;> cases writeOk <;>
    simp [ProjectStorage.save, ProjectStorage.save_to_file]

/-- A `get` for the id just saved is served from the memory tier and
returns the record with the save-time `updated_at`. -/
theorem get_after_save (s : ProjectStorage) (p : ProjectContext)
    (persist : Bool) (now now' : String) (writeOk : Bool) :
    ((s.save p persist now writeOk).1.get p.project_id now').2 =
      some { p with updated_at := now } := by
  rw [save_eq]
  simp [ProjectStorage.get, lookup_mapInsert_self]

/-- Concrete record used in corrected-claim scenarios: first version. -/
def cexP1 : ProjectContext :=
  ⟨"p1", "demo", "", "", [], [], [], [],
   "2024-01-01T00:00:00", "2024-01-01T00:00:00", []⟩

/-- Concrete record used in corrected-claim scenarios: second version,
same `project_id` as `cexP1`, different content and later `created_at`. -/
def cexP2 : ProjectContext :=
  ⟨"p1", "demo", "v2", "", [], [], [], [],
   "2024-02-02T00:00:00", "2024-02-02T00:00:00", []⟩

/-- Concrete record whose `created_at` lies in the future of the save
instant used in the C4 counterexample. -/
def cexLate : ProjectContext :=
  ⟨"p4", "demo", "", "", [], [], [], [],
   "2030-01-01T00:00:00", "2030-01-01T00:00:00", []⟩

/-- Concrete record whose `created_at` precedes the save instant used in
the C4 witness. -/
def cexEarly : ProjectContext :=
  ⟨"p5", "demo", "", "", [], [], [], [],
   "2024-01-01T00:00:00", "2024-01-01T00:00:00", []⟩

/-- C1: a record saved with `persist = true` (and a successful write) is
returned by a later `get` with the same `project_id` that misses the
memory tier (here: after the entry is evicted); the returned record equals
the saved one in every field except that `updated_at` is the save-time
timestamp. -/
theorem round_trip_after_eviction (s : ProjectStorage) (p : ProjectContext)
    (now now' : String) :
    (((s.save p true now true).1.evict p.project_id).get p.project_id
        now').2 = some { p with updated_at := now } := by
  rw [save_eq]
  simp [ProjectStorage.evict, ProjectStorage.get, ProjectStorage.load_from_file,
    lookup_mapErase_self, lookup_mapInsert_self, decode_encode]

/-- C5: `save` sets `updated_at` to the current time, upserts into the
in-memory table keyed by `project_id`, writes the file representation only
when `persist` is true, and returns the `project_id` in every case — in
particular when the file write fails (`writeOk = false`), in which case
the file map and the new memory entry are untouched; the function is
total, so no error propagates to the caller. -/
theorem save_spec (s : ProjectStorage) (p : ProjectContext) (persist : Bool)
    (now : String) (writeOk : Bool) :
    s.save p persist now writeOk =
      ({ s with
          memory_store :=
            mapInsert s.memory_store p.project_id { p with updated_at := now },
          files :=
            if persist && writeOk then
              mapInsert s.files (file_name p.project_id)
                (FileContent.json (encodeProject { p with updated_at := now }))
            else s.files },
       p.project_id) :=
  save_eq s p persist now writeOk

/-- C2 counterexample: two saves of the same `project_id` with different
content; `get` returns the second record, whose `created_at` is the
second record's own `created_at`, not the one from the first save —
`save` never rewrites `created_at`, so nothing preserves the first
value. -/
theorem save_twice_created_at_not_preserved :
    (((ProjectStorage.init.save cexP1 false "2024-03-01T00:00:00" true).1.save
        cexP2 false "2024-03-02T00:00:00" true).1.get "p1" "t").2 =
      some { cexP2 with updated_at := "2024-03-02T00:00:00" } ∧
    cexP2.created_at ≠ cexP1.created_at := by
  exact ⟨rfl, by decide⟩

/-- C2 (amended): after two saves with the same `project_id`, `get`
returns only the second record's content with `updated_at` equal to the
second save time; its `created_at` is the `created_at` carried by the
record passed to the second save (so it equals the first save's value
exactly when the caller re-saves a record carrying it). -/
theorem save_twice_second_wins (s : ProjectStorage) (p1 p2 : ProjectContext)
    (persist1 persist2 : Bool) (now1 now2 now' : String) (w1 w2 : Bool)
    (h : p2.project_id = p1.project_id) :
    (((s.save p1 persist1 now1 w1).1.save p2 persist2 now2 w2).1.get
        p1.project_id now').2 = some { p2 with updated_at := now2 } := by
  rw [← h]
  exact get_after_save _ p2 persist2 now2 now' w2

theorem save_twice_second_wins_witness :
    cexP2.project_id = cexP1.project_id ∧
    (((ProjectStorage.init.save cexP1 true "t1" true).1.save cexP2 true "t2"
        true).1.get cexP1.project_id "t3").2 =
      some { cexP2 with updated_at := "t2" } :=
  ⟨rfl, save_twice_second_wins ProjectStorage.init cexP1 cexP2 true true
    "t1" "t2" "t3" true true rfl⟩

/-- C4 counterexample: the store never enforces `created_at ≤ updated_at`:
saving a record whose `created_at` lies after the save instant yields a
reachable record (returned by `get`) with `created_at > updated_at`. -/
theorem created_at_le_updated_at_fails :
    ((ProjectStorage.init.save cexLate false "2024-01-01T00:00:00" true).1.get
        "p4" "t").2 = some { cexLate with updated_at := "2024-01-01T00:00:00" } ∧
    ¬ ({ cexLate with updated_at := "2024-01-01T00:00:00" } :
        ProjectContext).created_at ≤
      ({ cexLate with updated_at := "2024-01-01T00:00:00" } :
        ProjectContext).updated_at := by
  refine ⟨rfl, ?_⟩
  show ¬ ("2030-01-01T00:00:00" : String) ≤ "2024-01-01T00:00:00"
  rw [String.le_iff_toList_le]
  decide

/-- C4 (amended): `save` stamps `updated_at` with the save time and leaves
`created_at` untouched, so any record whose `created_at` is at most the
save time is returned by a subsequent `get` satisfying
`created_at ≤ updated_at`; the store itself never establishes the
inequality for records carrying a later `created_at`. -/
theorem created_le_updated_after_save (s : ProjectStorage)
    (p : ProjectContext) (persist : Bool) (now now' : String) (writeOk : Bool)
    (r : ProjectContext) (hc : p.created_at ≤ now)
    (hr : ((s.save p persist now writeOk).1.get p.project_id now').2 = some r) :
    r.created_at ≤ r.updated_at := by
  rw [get_after_save] at hr
  injection hr with hr
  rw [← hr]
  exact hc

theorem created_le_updated_after_save_witness :
    cexEarly.created_at ≤ "2024-06-01T00:00:00" ∧
    ((ProjectStorage.init.save cexEarly false "2024-06-01T00:00:00" true).1.get
        cexEarly.project_id "t").2 =
      some { cexEarly with updated_at := "2024-06-01T00:00:00" } ∧
    ({ cexEarly with updated_at := "2024-06-01T00:00:00" } :
        ProjectContext).created_at ≤
      ({ cexEarly with updated_at := "2024-06-01T00:00:00" } :
        ProjectContext).updated_at :=
  have hc : cexEarly.created_at ≤ "2024-06-01T00:00:00" := by
    show ("2024-01-01T00:00:00" : String) ≤ "2024-06-01T00:00:00"
    rw [String.le_iff_toList_le]
    decide
  ⟨hc, rfl, created_le_updated_after_save ProjectStorage.init cexEarly false
    "2024-06-01T00:00:00" "t" true _ hc rfl⟩

/-- Concrete record sitting in the file tier for the C3 and C10
witnesses. -/
def fileRecord : ProjectContext :=
  ⟨"x1", "name1", "", "", [], [], [], [], "c0", "u0", []⟩

/-- Store whose memory tier is empty while the file tier holds
`fileRecord`. -/
def fileOnlyStore : ProjectStorage :=
  ⟨[], [("x1.json", FileContent.json (encodeProject fileRecord))], 0⟩

/-- Store holding `fileRecord` in both tiers. -/
def dualStore : ProjectStorage :=
  ⟨[("x1", fileRecord)],
   [("x1.json", FileContent.json (encodeProject fileRecord))], 0⟩

/-- Store whose only file is malformed text. -/
def corruptStore : ProjectStorage :=
  ⟨[], [("bad1.json", FileContent.malformed)], 0⟩

/-- C3: a `get` that misses the memory tier and hits the file tier returns
the file record, promotes it into the memory table, and bumps the
file-read counter; a second `get` for the same id returns the same record
from memory with the state — in particular the file-read counter —
unchanged. -/
theorem get_promotes_file_hit (s : ProjectStorage) (X now now' : String)
    (v : JsonVal) (p : ProjectContext)
    (hmem : s.memory_store.lookup X = none)
    (hfile : s.files.lookup (file_name X) = some (FileContent.json v))
    (hdec : decodeProject now v = some p) :
    (s.get X now).2 = some p ∧
    (s.get X now).1.memory_store.lookup X = some p ∧
    (s.get X now).1.file_reads = s.file_reads + 1 ∧
    ((s.get X now).1.get X now').2 = some p ∧
    ((s.get X now).1.get X now').1 = (s.get X now).1 := by
  have h1 : s.get X now =
      (ProjectStorage.mk (mapInsert s.memory_store X p) s.files
        (s.file_reads + 1), some p) := by
    simp [ProjectStorage.get, ProjectStorage.load_from_file, hmem, hfile, hdec]
  rw [h1]
  refine ⟨rfl, lookup_mapInsert_self _ _ _, rfl, ?_, ?_⟩ <;>
    simp [ProjectStorage.get, lookup_mapInsert_self]

theorem get_promotes_file_hit_witness :
    fileOnlyStore.memory_store.lookup "x1" = none ∧
    fileOnlyStore.files.lookup (file_name "x1") =
      some (FileContent.json (encodeProject fileRecord)) ∧
    decodeProject "t" (encodeProject fileRecord) = some fileRecord ∧
    ((fileOnlyStore.get "x1" "t").2 = some fileRecord ∧
     (fileOnlyStore.get "x1" "t").1.memory_store.lookup "x1" =
       some fileRecord ∧
     (fileOnlyStore.get "x1" "t").1.file_reads =
       fileOnlyStore.file_reads + 1 ∧
     ((fileOnlyStore.get "x1" "t").1.get "x1" "t2").2 = some fileRecord ∧
     ((fileOnlyStore.get "x1" "t").1.get "x1" "t2").1 =
       (fileOnlyStore.get "x1" "t").1) :=
  ⟨rfl, rfl, rfl, get_promotes_file_hit fileOnlyStore "x1" "t" "t2"
    (encodeProject fileRecord) fileRecord rfl rfl rfl⟩

/-- C6: when the memory tier misses and the backing file holds malformed
JSON, or JSON that fails the record schema, `get` returns `none` without
raising and leaves both tiers unchanged — to the caller this is the same
outcome as genuine absence. -/
theorem get_corrupt_is_absent (s : ProjectStorage) (id now : String)
    (hmem : s.memory_store.lookup id = none)
    (hbad : s.files.lookup (file_name id) = some FileContent.malformed ∨
        ∃ v, s.files.lookup (file_name id) = some (FileContent.json v) ∧
          decodeProject now v = none) :
    (s.get id now).2 = none ∧
    (s.get id now).1.memory_store = s.memory_store ∧
    (s.get id now).1.files = s.files := by
  rcases hbad with hb | ⟨v, hb, hd⟩
  · simp [ProjectStorage.get, ProjectStorage.load_from_file, hmem, hb]
  · simp [ProjectStorage.get, ProjectStorage.load_from_file, hmem, hb, hd]

theorem get_corrupt_is_absent_witness :
    corruptStore.memory_store.lookup "bad1" = none ∧
    (corruptStore.files.lookup (file_name "bad1") =
        some FileContent.malformed ∨
      ∃ v, corruptStore.files.lookup (file_name "bad1") =
          some (FileContent.json v) ∧ decodeProject "t" v = none) ∧
    ((corruptStore.get "bad1" "t").2 = none ∧
     (corruptStore.get "bad1" "t").1.memory_store =
       corruptStore.memory_store ∧
     (corruptStore.get "bad1" "t").1.files = corruptStore.files) :=
  ⟨rfl, Or.inl rfl,
   get_corrupt_is_absent corruptStore "bad1" "t" rfl (Or.inl rfl)⟩

/-- C7: `delete` drops the memory entry when present; with
`delete_file = true` it also unlinks an existing backing file when the
unlink succeeds; the returned Boolean is true exactly when the memory
entry existed or a file was actually removed, so a wholly absent id gives
false and a failed unlink (`unlinkOk = false`) contributes nothing. -/
theorem delete_characterization (s : ProjectStorage) (id : String)
    (df uOk : Bool) :
    (s.delete id df uOk).2 =
      ((s.memory_store.lookup id).isSome ||
        (df && uOk && (s.files.lookup (file_name id)).isSome)) ∧
    (s.delete id df uOk).1.memory_store =
      (if (s.memory_store.lookup id).isSome then
        mapErase s.memory_store id else s.memory_store) ∧
    (s.delete id df uOk).1.memory_store.lookup id = none ∧
    (s.delete id df uOk).1.files =
      (if df && uOk && (s.files.lookup (file_name id)).isSome then
        mapErase s.files (file_name id) else s.files) := by
  cases hm : s.memory_store.lookup id <;> cases df <;> cases uOk <;>
    cases hf : s.files.lookup (file_name id) <;>
      simp [ProjectStorage.delete, hm, hf, lookup_mapErase_self]

/-- C8: the derived file name keeps exactly the alphanumeric and hyphen
characters of the id, appends the fixed `.json` suffix, and the resulting
path lies directly inside the projects directory: the file name contains
no path separator and is never empty, `.` or `..`, so the path cannot
escape the directory. -/
theorem sanitize_path_safe (home id : String) :
    (sanitize_id id).data =
      id.data.filter (fun c => c.isAlphanum || c == '-') ∧
    file_name id = sanitize_id id ++ ".json" ∧
    get_file_path home id = projects_dir home ++ "/" ++ file_name id ∧
    (∀ c ∈ (file_name id).data, c ≠ '/') ∧
    file_name id ≠ "" ∧ file_name id ≠ "." ∧ file_name id ≠ ".." := by
  have hdata : (file_name id).data =
      (id.data.filter (fun c => c.isAlphanum || c == '-')) ++
        ['.', 'j', 's', 'o', 'n'] := by
    simp [file_name, string_data_append, sanitize_id]
  refine ⟨rfl, rfl, rfl, ?_, ?_, ?_, ?_⟩
  · intro c hc
    rw [hdata, List.mem_append] at hc
    rcases hc with hc | hc
    · have hp := (List.mem_filter.mp hc).2
      intro h
      subst h
      exact absurd hp (by decide)
    · intro h
      subst h
      exact absurd hc (by decide)
  · intro h
    have hd := congrArg String.data h
    rw [hdata] at hd
    simp at hd
  · intro h
    have hd := congrArg String.data h
    rw [hdata] at hd
    have hlen := congrArg List.length hd
    simp at hlen
  · intro h
    have hd := congrArg String.data h
    rw [hdata] at hd
    have hlen := congrArg List.length hd
    simp at hlen

/-- Record with a path-separator-laden id, for the C9 collision. -/
def cexA : ProjectContext :=
  ⟨"a/b", "first", "", "", [], [], [], [], "c1", "c1", []⟩

/-- Record whose id is the sanitized form of `cexA`'s id. -/
def cexB : ProjectContext :=
  ⟨"ab", "second", "", "", [], [], [], [], "c2", "c2", []⟩

/-- C9: sanitization is not injective: the distinct ids `"a/b"` and
`"ab"` share one file path, so persisting the second record overwrites the
first record's file, and a later `get "a/b"` that misses the memory tier
returns the `"ab"` record — a record whose `project_id` differs from the
argument of `get`. -/
theorem sanitize_collision_overwrites :
    "a/b" ≠ "ab" ∧
    sanitize_id "a/b" = sanitize_id "ab" ∧
    get_file_path "home" "a/b" = get_file_path "home" "ab" ∧
    (((((ProjectStorage.init.save cexA true "t1" true).1.save cexB true "t2"
        true).1.evict "a/b").evict "ab").get "a/b" "t3").2 =
      some { cexB with updated_at := "t2" } ∧
    ({ cexB with updated_at := "t2" } : ProjectContext).project_id ≠ "a/b" :=
  ⟨by decide, rfl, rfl, rfl, by decide⟩

/-- C10: for an id present in both tiers, `delete` with
`delete_file = false` returns true, removes only the memory entry and
leaves the file tier unchanged, so a subsequent `get` finds the persisted
record again in the file tier rather than not-found. -/
theorem delete_memory_only_resurrects (s : ProjectStorage) (id now : String)
    (uOk : Bool) (p q : ProjectContext) (v : JsonVal)
    (hmem : s.memory_store.lookup id = some p)
    (hfile : s.files.lookup (file_name id) = some (FileContent.json v))
    (hdec : decodeProject now v = some q) :
    (s.delete id false uOk).2 = true ∧
    (s.delete id false uOk).1.files = s.files ∧
    (s.delete id false uOk).1.memory_store.lookup id = none ∧
    ((s.delete id false uOk).1.get id now).2 = some q := by
  have hdel : s.delete id false uOk =
      ({ s with memory_store := mapErase s.memory_store id }, true) := by
    simp [ProjectStorage.delete, hmem]
  rw [hdel]
  refine ⟨rfl, rfl, lookup_mapErase_self _ _, ?_⟩
  simp [ProjectStorage.get, ProjectStorage.load_from_file,
    lookup_mapErase_self, hfile, hdec]

theorem delete_memory_only_resurrects_witness :
    dualStore.memory_store.lookup "x1" = some fileRecord ∧
    dualStore.files.lookup (file_name "x1") =
      some (FileContent.json (encodeProject fileRecord)) ∧
    decodeProject "t" (encodeProject fileRecord) = some fileRecord ∧
    ((dualStore.delete "x1" false true).2 = true ∧
     (dualStore.delete "x1" false true).1.files = dualStore.files ∧
     (dualStore.delete "x1" false true).1.memory_store.lookup "x1" = none ∧
     ((dualStore.delete "x1" false true).1.get "x1" "t").2 =
       some fileRecord) :=
  ⟨rfl, rfl, rfl, delete_memory_only_resurrects dualStore "x1" "t" true
    fileRecord fileRecord (encodeProject fileRecord) rfl rfl rfl⟩

end Pal
